import Mathlib

/-!
Shallow embedding of `deepaffects_summary_api.py` (SEERNET/automatic_summarization).

The script parses call transcripts (plain text or JSON), submits them to a remote
summarization API, polls for completion, and writes the result to disk.  Python
values exchanged with the API are modelled by the `Json` inductive; Python
exceptions by `PyExn`; fallible code returns `Except PyExn _`.  HTTP calls are
modelled as explicit oracle arguments (the value `requests.post`/`requests.get`
would produce, or the exception they would raise).
-/

/-- Python exceptions that the script can raise, as an opaque-tag model. -/
inductive PyExn where
  | indexError
  | keyError (k : String)
  | typeError
  | attributeError
  | jsonDecodeError
  | connectionError
  | getoptError (msg : String)
deriving DecidableEq, Repr

/-- JSON values (also used for generic Python values flowing through the script:
dicts, lists, strings, numbers, booleans, None). -/
inductive Json where
  | null
  | bool (b : Bool)
  | num (n : Int)
  | str (s : String)
  | arr (elems : List Json)
  | obj (fields : List (String × Json))

/-- One transcript segment, the record produced by `read_text_to_segments`
(keys `speakerId` and `text`). -/
structure Segment where
  speakerId : String
  text : String
deriving DecidableEq, Repr

/-! ### Python string primitives (over `List Char`) -/

/-- Whether `pat` is a prefix of `s` (both as char lists). -/
def startsWithChars : List Char → List Char → Bool
  | [], _ => true
  | _ :: _, [] => false
  | p :: ps, c :: cs => p = c && startsWithChars ps cs

/-- Whether `pat` is a suffix of `s`, Python `str.endswith`. -/
def endsWithChars (pat s : List Char) : Bool :=
  startsWithChars pat.reverse s.reverse

/-- Python substring test `pat in s`. -/
def hasSub (pat : List Char) : List Char → Bool
  | [] => startsWithChars pat []
  | c :: cs => startsWithChars pat (c :: cs) || hasSub pat cs

/-- Drop leading whitespace characters. -/
def dropWs : List Char → List Char
  | [] => []
  | c :: cs => if c.isWhitespace then dropWs cs else c :: cs

/-- Python `str.strip()` on a char list. -/
def pyStripChars (l : List Char) : List Char :=
  ((dropWs ((dropWs l).reverse)).reverse)

/-- Python `str.strip()`. -/
def pyStrip (s : String) : String :=
  String.mk (pyStripChars s.toList)

/-- Python `str.lower()` (ASCII model). -/
def pyLower (s : String) : String :=
  String.mk (s.toList.map Char.toLower)

/-- Split at the first occurrence of `sep`: Python `s.split(sep, 1)` returning
`some (before, after)`, or `none` when `sep` does not occur. -/
def splitFirst (sep : List Char) : List Char → Option (List Char × List Char)
  | [] => none
  | c :: cs =>
    if startsWithChars sep (c :: cs) then some ([], (c :: cs).drop sep.length)
    else
      match splitFirst sep cs with
      | some (a, b) => some (c :: a, b)
      | none => none

/-- Split at the last occurrence of `sep`: Python `s.rsplit(sep, 1)` returning
`some (before, after)`, or `none` when `sep` does not occur. -/
def splitLast (sep : List Char) : List Char → Option (List Char × List Char)
  | [] => none
  | c :: cs =>
    match splitLast sep cs with
    | some (a, b) => some (c :: a, b)
    | none =>
      if startsWithChars sep (c :: cs) then some ([], (c :: cs).drop sep.length)
      else none

/-! ### Python dict/JSON primitives -/

/-- Lookup of a key in a Python dict (first matching field). -/
def lookupField : List (String × Json) → String → Option Json
  | [], _ => none
  | (k, v) :: rest, key => if k = key then some v else lookupField rest key

/-- Python subscript `j[k]`: `KeyError` when the key is absent from a dict,
`TypeError` when `j` is not a dict. -/
def jsonGetItem (j : Json) (k : String) : Except PyExn Json :=
  match j with
  | .obj fields =>
    match lookupField fields k with
    | some v => .ok v
    | none => .error (.keyError k)
  | _ => .error .typeError

/-- Python `j.get(k, None)`: `None` when absent, `AttributeError` when `j` is
not a dict. -/
def jsonGet (j : Json) (k : String) : Except PyExn (Option Json) :=
  match j with
  | .obj fields => .ok (lookupField fields k)
  | _ => .error .attributeError

/-- Coerce to a Python string: `.lower()`/`.strip()` on a non-string raises
`AttributeError`. -/
def pyAsString : Json → Except PyExn String
  | .str s => .ok s
  | _ => .error .attributeError

/-- Python dict assignment `d[k] = v`: replaces the first binding of `k` in
place, or appends a new binding at the end. -/
def pyDictSet (fields : List (String × Json)) (k : String) (v : Json) :
    List (String × Json) :=
  match fields with
  | [] => [(k, v)]
  | (k2, v2) :: rest =>
    if k2 = k then (k, v) :: rest else (k2, v2) :: pyDictSet rest k v

/-! ### Transcript Parser -/

/-- The separator string `": "` used by `read_text_to_segments`. -/
def sepChars : List Char := [':', ' ']

/-- Inner helper `get_speaker_id` of `read_text_to_segments`: strips the label
and removes a leading `speaker_` prefix (`label[label.startswith("speaker_") and 8:]`). -/
def get_speaker_id (label : String) : String :=
  let l := pyStrip label
  if startsWithChars "speaker_".toList l.toList then String.mk (l.toList.drop 8)
  else l

/-- Model of `read_text_to_segments` over the list of lines of the input file.
Each line is stripped; blank lines are skipped; the line is split on the first
`": "` (`line.split(": ", 1)`); when the separator is absent the code accesses
`line[1]` of a one-element list, raising `IndexError`; otherwise the remainder
is split on the last `": "` (`rsplit(": ", 1)`) and the final element, stripped,
is the segment text. -/
def read_text_to_segments (lines : List String) : Except PyExn (List Segment) :=
  match lines with
  | [] => .ok []
  | l :: ls =>
    let line := pyStrip l
    if line = "" then read_text_to_segments ls
    else
      match splitFirst sepChars line.toList with
      | none => .error .indexError
      | some (part0, rest) =>
        let sid := get_speaker_id (String.mk part0)
        let text :=
          match splitLast sepChars rest with
          | some (_, t) => pyStrip (String.mk t)
          | none => pyStrip (String.mk rest)
        match read_text_to_segments ls with
        | .ok segs => .ok ({ speakerId := sid, text := text } :: segs)
        | .error e => .error e

/-- The segment a single well-formed line contributes, restating the per-line
computation of `read_text_to_segments` (the fallback for a separator-free line
is irrelevant: such lines raise instead). -/
def lineSeg (l : String) : Segment :=
  let line := pyStrip l
  match splitFirst sepChars line.toList with
  | none => { speakerId := "", text := "" }
  | some (part0, rest) =>
    { speakerId := get_speaker_id (String.mk part0),
      text :=
        match splitLast sepChars rest with
        | some (_, t) => pyStrip (String.mk t)
        | none => pyStrip (String.mk rest) }

/-- A line is well formed for the text parser when, after stripping, it
contains the `": "` separator. -/
def wellFormedLine (l : String) : Bool :=
  (splitFirst sepChars (pyStrip l).toList).isSome

/-- One step of the loop `for x in output_segments: x["speakerId"] = x["speaker_id"]`:
reading `x["speaker_id"]` raises `KeyError` when absent and `TypeError` when
`x` is not a dict. -/
def copySpeaker (x : Json) : Except PyExn Json :=
  match x with
  | .obj fields =>
    match lookupField fields "speaker_id" with
    | some v => .ok (.obj (pyDictSet fields "speakerId" v))
    | none => .error (.keyError "speaker_id")
  | _ => .error .typeError

/-- Total restatement of `copySpeaker` on elements where it succeeds. -/
def copySpeakerT (x : Json) : Json :=
  match x with
  | .obj fields =>
    match lookupField fields "speaker_id" with
    | some v => .obj (pyDictSet fields "speakerId" v)
    | none => x
  | _ => x

/-- Error-propagating map over a list of JSON values. -/
def mapExcept (f : Json → Except PyExn Json) : List Json → Except PyExn (List Json)
  | [] => .ok []
  | x :: xs =>
    match f x with
    | .error e => .error e
    | .ok y =>
      match mapExcept f xs with
      | .error e => .error e
      | .ok ys => .ok (y :: ys)

/-- The `for x in output_segments` loop of `read_json_to_segments`. Iterating a
list mutates each element; iterating an empty dict or empty string runs the
body zero times; iterating a non-empty dict or string yields strings, on which
item assignment raises `TypeError`; other values are not iterable (`TypeError`). -/
def pyIterAssign : Json → Except PyExn Json
  | .arr xs =>
    match mapExcept copySpeaker xs with
    | .ok ys => .ok (.arr ys)
    | .error e => .error e
  | .obj [] => .ok (.obj [])
  | .str "" => .ok (.str "")
  | _ => .error .typeError

/-- Model of `read_json_to_segments`: `json.load(f)["segments"]` (the `doc`
argument is the outcome of `json.load`, which may itself raise), then the
speaker-id copying loop. Exceptions propagate to the caller. -/
def read_json_to_segments (doc : Except PyExn Json) : Except PyExn Json :=
  match doc with
  | .error e => .error e
  | .ok j =>
    match jsonGetItem j "segments" with
    | .error e => .error e
    | .ok segs => pyIterAssign segs

/-! ### Request Submitter -/

/-- A parsed text segment as the JSON dict the payload embeds. -/
def segToJson (s : Segment) : Json :=
  .obj [("speakerId", .str s.speakerId), ("text", .str s.text)]

/-- The segments value `send_request` builds for a `.txt` input file. -/
def txtSegmentsJson (lines : List String) : Except PyExn Json :=
  match read_text_to_segments lines with
  | .ok segs => .ok (.arr (segs.map segToJson))
  | .error e => .error e

/-- Model of a Python model argument (`None` or a string). -/
def optStrToJson : Option String → Json
  | some m => .str m
  | none => .null

/-- The POST payload `{"summaryType": "abstractive", "summaryData": segments, "model": model}`. -/
def mkPayload (segments : Json) (model : Option String) : Json :=
  .obj [("summaryType", .str "abstractive"),
        ("summaryData", segments),
        ("model", optStrToJson model)]

/-- Model of `send_request`.  `readResult` is the outcome of reading the input
file (either parser); `post payload` is the outcome of
`requests.post(...)` followed by `response.json()` (outer `Except`: the POST
itself; inner: JSON decoding).  The whole body sits in
`try: ... except Exception: print(ex)` followed by `return None`, so every
failure point returns `.ok none` (the exception is printed and swallowed) and
no exception ever escapes; on success the result is
`response.get("request_id", None)`. -/
def send_request (readResult : Except PyExn Json)
    (post : Json → Except PyExn (Except PyExn Json)) (model : Option String) :
    Except PyExn (Option Json) :=
  match readResult with
  | .error _ => .ok none
  | .ok segments =>
    match post (mkPayload segments model) with
    | .error _ => .ok none
    | .ok bodyResult =>
      match bodyResult with
      | .error _ => .ok none
      | .ok j =>
        match jsonGet j "request_id" with
        | .error _ => .ok none
        | .ok r => .ok r

/-! ### Status Poller -/

/-- The characters of `"progress"`. -/
def progressChars : List Char := "progress".toList

/-- The characters of `"completed"`. -/
def completedChars : List Char := "completed".toList

/-- The `try:` body of `get_response`, given the outcome of `response.json()`.
`status = response['status'].lower().strip()`; a status containing
`"progress"` sleeps 10 s and yields `"IN PROGRESS"`; one containing
`"completed"` yields `response['response']['response']`; any other status, or
any exception raised at any of these steps, yields `"FAILED"` (the `except`
branch prints and falls through). -/
def get_response_body (bodyResult : Except PyExn Json) : Json :=
  match bodyResult with
  | .error _ => .str "FAILED"
  | .ok j =>
    match jsonGetItem j "status" with
    | .error _ => .str "FAILED"
    | .ok st =>
      match pyAsString st with
      | .error _ => .str "FAILED"
      | .ok s =>
        let status := pyStrip (pyLower s)
        if hasSub progressChars status.toList then .str "IN PROGRESS"
        else if hasSub completedChars status.toList then
          match jsonGetItem j "response" with
          | .error _ => .str "FAILED"
          | .ok r1 =>
            match jsonGetItem r1 "response" with
            | .error _ => .str "FAILED"
            | .ok r2 => r2
        else .str "FAILED"

/-- Model of `get_response`.  `call` is the outcome of
`requests.get(url, ...)` followed by `.json()` (outer `Except`: the GET call at
line 131, which sits OUTSIDE the `try:` block starting at line 132; inner:
`response.json()`, which is inside it).  An exception of the GET itself
therefore propagates to the caller; everything after it is protected. -/
def get_response (call : Except PyExn (Except PyExn Json)) : Except PyExn Json :=
  match call with
  | .error e => .error e
  | .ok bodyResult => .ok (get_response_body bodyResult)

/-- The lowered, stripped status string of a parsed poll response, when the
parse succeeds. -/
def statusOf (j : Json) : Except PyExn String :=
  match jsonGetItem j "status" with
  | .error e => .error e
  | .ok st =>
    match pyAsString st with
    | .error e => .error e
    | .ok s => .ok (pyStrip (pyLower s))

/-- Whether a parsed poll response has a status string containing neither
`"progress"` nor `"completed"`. -/
def statusUnrecognized (j : Json) : Bool :=
  match statusOf j with
  | .ok s => !(hasSub progressChars s.toList) && !(hasSub completedChars s.toList)
  | .error _ => false

/-! ### Result Writer and Driver loop -/

/-- Python `os.path.basename` (POSIX): the part after the last `/`. -/
def pyBasename (p : String) : String :=
  match splitLast ['/'] p.toList with
  | some (_, b) => String.mk b
  | none => p

/-- Python `os.path.join` (POSIX, two arguments). -/
def pyPathJoin (a b : String) : String :=
  if startsWithChars ['/'] b.toList then b
  else if a = "" ∨ endsWithChars ['/'] a.toList then a ++ b
  else a ++ "/" ++ b

/-- The output path `os.path.join(out_folder, os.path.basename(file_name) + ".output.json")`. -/
def outPath (out_folder file_name : String) : String :=
  pyPathJoin out_folder (pyBasename file_name ++ ".output.json")

/-- Writing the result file: `open(out_filename, 'w')` truncates any existing
file, then `json.dump({"response": response}, f)`.  The file system is a map
from paths to JSON contents. -/
def writeOutput (fs : String → Option Json) (out_folder file_name : String)
    (result : Json) : String → Option Json :=
  Function.update fs (outPath out_folder file_name)
    (some (.obj [("response", result)]))

/-- Outcome of the polling loop of `process_summary_request` on a finite trace
of poll responses: which terminal case fired and how many responses were
consumed. -/
inductive LoopResult where
  | written (result : Json) (consumed : Nat)
  | failedStop (consumed : Nat)
  | exhausted

/-- Python `isinstance(response, dict)`. -/
def isDict : Json → Bool
  | .obj _ => true
  | _ => false

/-- Python `response == "FAILED"` (true exactly of the string `"FAILED"`). -/
def isFAILED : Json → Bool
  | .str s => if s = "FAILED" then true else false
  | _ => false

/-- The `while completed:` loop of `process_summary_request` over a finite
trace of successive `get_response` return values: a dict response is written
and stops the loop; the string `"FAILED"` stops it without writing; anything
else (`"IN PROGRESS"`) prints and loops. -/
def pollSteps : List Json → LoopResult
  | [] => .exhausted
  | r :: rs =>
    if isDict r then .written r 1
    else if isFAILED r then .failedStop 1
    else
      match pollSteps rs with
      | .written x n => .written x (n + 1)
      | .failedStop n => .failedStop (n + 1)
      | .exhausted => .exhausted

/-- Number of output files the loop writes. -/
def writesOf : LoopResult → Nat
  | .written _ _ => 1
  | _ => 0

/-- Model of `process_summary_request` (lines 156-170): run the polling loop on
the trace of poll responses; on a dict response write
`{"response": response}` to the output path; on `"FAILED"` stop without
touching the file system. -/
def process_summary_request (file_name out_folder : String)
    (responses : List Json) (fs : String → Option Json) :
    (String → Option Json) × LoopResult :=
  match pollSteps responses with
  | .written r n => (writeOutput fs out_folder file_name r, .written r n)
  | .failedStop n => (fs, .failedStop n)
  | .exhausted => (fs, .exhausted)

/-- Fuel-indexed run of the polling loop against an infinite response stream
`resp : Nat → Json`: `runLoop resp k fuel = none` means the loop is still
running after `fuel` further iterations starting from poll number `k`.  The
loop condition is only the `completed` flag: there is no retry counter and no
timeout in the code. -/
def runLoop (resp : Nat → Json) : Nat → Nat → Option LoopResult
  | _, 0 => none
  | k, fuel + 1 =>
    let r := resp k
    if isDict r then some (.written r (k + 1))
    else if isFAILED r then some (.failedStop (k + 1))
    else runLoop resp (k + 1) fuel

/-! ### Command-line driver (`__main__`) and its `getopt.getopt` call

The option parser follows CPython `Lib/getopt.py` (`getopt`, `do_longs`,
`do_shorts`, `long_has_args`, `short_has_arg`).  One representational change:
`do_longs`/`do_shorts` here return a flag saying whether they consumed the
following command-line argument, and the loop drops it, instead of returning
the remaining argument list itself; both helpers consume at most one argument,
so this is the same computation. -/

/-- A parsed option pair as returned by `getopt` (`("-i", value)` etc.). -/
abbrev CliOpt := String × String

/-- The short-option string of the `getopt.getopt` call at line 190: `"i:o:"`. -/
def mainShortopts : String := "i:o:"

/-- The long-option list of the `getopt.getopt` call at line 190 (note: no
`"model="` entry is registered). -/
def mainLongopts : List String := ["input_file_path=", "output_folder="]

/-- Whether a char list begins with `':'`, i.e. `shortopts[i+1:i+2] == ':'`. -/
def headIsColon : List Char → Bool
  | ':' :: _ => true
  | _ => false

/-- `getopt.short_has_arg`: scan `shortopts` for the option letter
(`opt == shortopts[i] != ':'`); error when the letter is not registered. -/
def short_has_arg (opt : Char) : List Char → Except PyExn Bool
  | [] => .error (.getoptError "option not recognized")
  | c :: rest =>
    if opt = c ∧ c ≠ ':' then .ok (headIsColon rest)
    else short_has_arg opt rest

/-- `getopt.do_shorts`: peel option letters off a `-xyz` cluster.  A letter
that takes an argument uses the remaining cluster text if non-empty, else the
next command-line argument (flag `true` in the result), failing when there is
none. -/
def do_shorts (opts : List CliOpt) (optstring shortopts : List Char)
    (args : List String) : Except PyExn (List CliOpt × Bool) :=
  match optstring with
  | [] => .ok (opts, false)
  | opt :: rest =>
    match short_has_arg opt shortopts with
    | .error e => .error e
    | .ok hasArg =>
      if hasArg then
        match rest with
        | [] =>
          match args with
          | [] => .error (.getoptError "option requires argument")
          | a :: _ => .ok (opts ++ [(String.mk ['-', opt], a)], true)
        | _ :: _ => .ok (opts ++ [(String.mk ['-', opt], String.mk rest)], false)
      else do_shorts (opts ++ [(String.mk ['-', opt], "")]) rest shortopts args

/-- Split a char list at the first `'='`, i.e. `opt.index('=')`. -/
def splitAtEq : List Char → Option (List Char × List Char)
  | [] => none
  | c :: cs =>
    if c = '=' then some ([], cs)
    else
      match splitAtEq cs with
      | some (a, b) => some (c :: a, b)
      | none => none

/-- Drop the final character of a string (`unique_match[:-1]`). -/
def dropLastChar (s : String) : String := String.mk s.toList.dropLast

/-- Python membership `x in l` for a list of strings. -/
def strListHas (l : List String) (x : String) : Bool :=
  match l with
  | [] => false
  | y :: rest => if y = x then true else strListHas rest x

/-- `getopt.long_has_args`: prefix-match `opt` against the registered long
options; exact match, exact match plus `=`, or a unique prefix; otherwise an
error. -/
def long_has_args (opt : String) (longopts : List String) :
    Except PyExn (Bool × String) :=
  let possibilities := longopts.filter (fun o => startsWithChars opt.toList o.toList)
  match possibilities with
  | [] => .error (.getoptError "option not recognized")
  | _ :: _ =>
    if strListHas possibilities opt then .ok (false, opt)
    else if strListHas possibilities (opt ++ "=") then .ok (true, opt)
    else
      match possibilities with
      | [u] =>
        if endsWithChars ['='] u.toList then .ok (true, dropLastChar u)
        else .ok (false, u)
      | _ => .error (.getoptError "option not a unique prefix")

/-- Body of `getopt.do_longs` after the `'='` split: `opt` is the option text,
`optarg` the inline `=value` when present.  The flag in the result says the
next command-line argument was taken as the option's value. -/
def do_longs_core (opts : List CliOpt) (opt : String) (optarg : Option String)
    (longopts : List String) (args : List String) :
    Except PyExn (List CliOpt × Bool) :=
  match long_has_args opt longopts with
  | .error e => .error e
  | .ok (hasArg, o2) =>
    if hasArg then
      match optarg with
      | some v => .ok (opts ++ [("--" ++ o2, v)], false)
      | none =>
        match args with
        | [] => .error (.getoptError "option requires argument")
        | a :: _ => .ok (opts ++ [("--" ++ o2, a)], true)
    else
      match optarg with
      | some _ => .error (.getoptError "option must not have an argument")
      | none => .ok (opts ++ [("--" ++ o2, "")], false)

/-- `getopt.do_longs`: split the `--name=value` text at the first `'='`. -/
def do_longs (opts : List CliOpt) (opt0 : String) (longopts : List String)
    (args : List String) : Except PyExn (List CliOpt × Bool) :=
  match splitAtEq opt0.toList with
  | none => do_longs_core opts opt0 none longopts args
  | some (a, b) => do_longs_core opts (String.mk a) (some (String.mk b)) longopts args

/-- The `while args and args[0].startswith('-') and args[0] != '-'` loop of
`getopt.getopt`: `--` ends option processing; `--x...` goes to `do_longs`;
`-x...` to `do_shorts`; a consumed-argument flag makes the loop drop the next
argument. -/
def getoptLoop (opts : List CliOpt) (shortopts : List Char)
    (longopts : List String) (args : List String) :
    Except PyExn (List CliOpt × List String) :=
  match args with
  | [] => .ok (opts, [])
  | a :: rest =>
    if startsWithChars ['-'] a.toList = false ∨ a = "-" then .ok (opts, a :: rest)
    else if a = "--" then .ok (opts, rest)
    else if startsWithChars ['-', '-'] a.toList then
      match do_longs opts (String.mk (a.toList.drop 2)) longopts rest with
      | .error e => .error e
      | .ok (opts2, true) => getoptLoop opts2 shortopts longopts (rest.drop 1)
      | .ok (opts2, false) => getoptLoop opts2 shortopts longopts rest
    else
      match do_shorts opts (a.toList.drop 1) shortopts rest with
      | .error e => .error e
      | .ok (opts2, true) => getoptLoop opts2 shortopts longopts (rest.drop 1)
      | .ok (opts2, false) => getoptLoop opts2 shortopts longopts rest
termination_by args.length
decreasing_by
  all_goals simp only [List.length_drop, List.length_cons]
  all_goals omega

/-- `getopt.getopt(args, shortopts, longopts)`. -/
def getopt (args : List String) (shortopts : String) (longopts : List String) :
    Except PyExn (List CliOpt × List String) :=
  getoptLoop [] shortopts.toList longopts args

/-- One step of the `for opt, arg in opts:` loop of `__main__`, updating the
state `(input_file_path, output_folder, model)`. -/
def optFold (s : Option String × Option String × Option String) (p : CliOpt) :
    Option String × Option String × Option String :=
  if p.1 = "-i" ∨ p.1 = "--input_file_path" then (some p.2, s.2.1, s.2.2)
  else if p.1 = "-o" ∨ p.1 = "--output_folder" then (s.1, some p.2, s.2.2)
  else if p.1 = "-m" ∨ p.1 = "--model" then (s.1, s.2.1, some p.2)
  else s

/-- The `(input_file_path, output_folder, model)` triple after the option loop
of `__main__`, starting from the initial `None` values. -/
def parsedOptions (opts : List CliOpt) :
    Option String × Option String × Option String :=
  opts.foldl optFold (none, none, none)

/-- The membership test `model in ["cassandra", "iamus"]` (with `model` being
`None` or a string). -/
def modelOk : Option String → Bool
  | some "cassandra" => true
  | some "iamus" => true
  | _ => false

/-- How a run of the `__main__` block ends: `sys.exit(n)`, or reaching the
final call `process_summary_request(input_file_path, output_folder)` with the
given positional arguments. -/
inductive MainOutcome where
  | exitCode (n : Nat)
  | callProcess (args : List String)
deriving DecidableEq, Repr

/-- Number of positional parameters of
`def process_summary_request(file_name, out_folder, model)` (line 149), all
without defaults. -/
def process_summary_request_param_count : Nat := 3

/-- Number of positional arguments of the call
`process_summary_request(input_file_path, output_folder)` at line 221. -/
def main_call_arg_count : Nat := 2

/-- Model of the `__main__` block: the API-key placeholder guard
(`if APIKEY in "YOUR_API_KEY": ... exit(0)`), then `getopt.getopt(sys.argv[1:],
"i:o:", ["input_file_path=", "output_folder="])` whose failure exits 2, the
option loop, and the argument-validation chain, each failing branch exiting 2;
only if every check passes is `process_summary_request(input_file_path,
output_folder)` reached.  `isdir` abstracts `os.path.isdir`. -/
def mainModel (apikey : String) (argv : List String) (isdir : String → Bool) :
    MainOutcome :=
  if hasSub apikey.toList "YOUR_API_KEY".toList then .exitCode 0
  else
    match getopt argv mainShortopts mainLongopts with
    | .error _ => .exitCode 2
    | .ok (opts, _) =>
      match parsedOptions opts with
      | (some input_file_path, some output_folder, model) =>
        if input_file_path.length = 0 ∨ output_folder.length = 0 then .exitCode 2
        else if !(endsWithChars ".json".toList input_file_path.toList ||
                  endsWithChars ".txt".toList input_file_path.toList) then .exitCode 2
        else if !(modelOk model) then .exitCode 2
        else if !(isdir output_folder) then .exitCode 2
        else .callProcess [input_file_path, output_folder]
      | _ => .exitCode 2

/-- The option names `getopt.getopt("i:o:", ["input_file_path=", "output_folder="])`
can ever return. -/
def allowedOpt (p : CliOpt) : Prop :=
  p.1 = "-i" ∨ p.1 = "-o" ∨ p.1 = "--input_file_path" ∨ p.1 = "--output_folder"

/-! ### Helper lemmas -/

/-- Setting `speakerId` makes lookup of `speakerId` return the new value. -/
theorem lookupField_pyDictSet_same (fields : List (String × Json)) (k : String)
    (v : Json) : lookupField (pyDictSet fields k v) k = some v := by
  induction fields with
  | nil => simp [pyDictSet, lookupField]
  | cons f rest ih =>
    obtain ⟨k2, v2⟩ := f
    by_cases hk : k2 = k
    · subst hk; simp [pyDictSet, lookupField]
    · simp [pyDictSet, lookupField, hk, ih]

/-- Setting `speakerId` leaves every other key unchanged. -/
theorem lookupField_pyDictSet_other (fields : List (String × Json)) (k k2 : String)
    (v : Json) (hne : k2 ≠ k) :
    lookupField (pyDictSet fields k v) k2 = lookupField fields k2 := by
  induction fields with
  | nil => simp [pyDictSet, lookupField, Ne.symm hne]
  | cons f rest ih =>
    obtain ⟨k3, v3⟩ := f
    by_cases hk : k3 = k
    · subst hk
      simp [pyDictSet, lookupField, Ne.symm hne]
    · by_cases hk2 : k3 = k2
      · subst hk2; simp [pyDictSet, lookupField, hk]
      · simp [pyDictSet, lookupField, hk, hk2, ih]

/-- On a list of dicts that all carry `speaker_id`, the copying loop succeeds
and acts as the total map `copySpeakerT`. -/
theorem mapExcept_copySpeaker : ∀ segs : List Json,
    (∀ x ∈ segs, ∃ xf v, x = Json.obj xf ∧ lookupField xf "speaker_id" = some v) →
    mapExcept copySpeaker segs = .ok (segs.map copySpeakerT) := by
  intro segs
  induction segs with
  | nil => intro _; rfl
  | cons x xs ih =>
    intro hwf
    have hrest := fun q hq => hwf q (List.mem_cons_of_mem x hq)
    obtain ⟨xf, v, hx, hv⟩ := hwf x (List.mem_cons_self x xs)
    subst hx
    simp [mapExcept, copySpeaker, copySpeakerT, hv, ih hrest]

/-! ### Claim theorems -/

/-- C3 (code_bug evidence): `requests.get` at line 131 sits outside the `try:`
block of `get_response`, so an exception raised by the HTTP status call itself
propagates to the caller instead of producing the `"FAILED"` sentinel that the
claim (and the function's own docstring, "In case of any error, returns
response as FAILED") promises. -/
theorem get_response_call_exception_propagates :
    get_response (.error PyExn.connectionError) = .error PyExn.connectionError
    ∧ (Except.error PyExn.connectionError : Except PyExn Json) ≠
        .ok (Json.str "FAILED") :=
  ⟨rfl, fun h => Except.noConfusion h⟩

/-- C4 counterexample: the line `"hello"` is non-blank and has no `": "`
separator, so `read_text_to_segments` raises `IndexError`; but `send_request`,
whose `try: ... except Exception` wraps the parse, swallows it and returns
`None` (the run does not abort). -/
theorem malformed_line_error_is_swallowed :
    read_text_to_segments ["hello"] = .error PyExn.indexError
    ∧ send_request (txtSegmentsJson ["hello"])
        (fun _ => .ok (.ok (Json.obj [("request_id", Json.str "abc")])))
        (some "iamus") = .ok none :=
  ⟨rfl, rfl⟩

/-- C4 (amended): any non-blank `.txt` line without the `": "` separator,
reached after only blank or well-formed lines, makes `read_text_to_segments`
raise `IndexError`; `send_request`'s blanket handler catches it and returns
`None`, so no exception escapes and processing would continue with a null
request id. -/
theorem malformed_line_raises_and_send_request_returns_none
    (pre tail : List String) (l : String)
    (post : Json → Except PyExn (Except PyExn Json)) (model : Option String)
    (hpre : ∀ p ∈ pre, pyStrip p = "" ∨ wellFormedLine p = true)
    (hl1 : ¬ pyStrip l = "") (hl2 : wellFormedLine l = false) :
    read_text_to_segments (pre ++ l :: tail) = .error PyExn.indexError
    ∧ send_request (txtSegmentsJson (pre ++ l :: tail)) post model = .ok none := by
  have hsp : splitFirst sepChars (pyStrip l).data = none := by
    unfold wellFormedLine at hl2
    cases hc : splitFirst sepChars (pyStrip l).toList with
    | none => exact hc
    | some v => rw [hc] at hl2; simp at hl2
  have hmain : read_text_to_segments (pre ++ l :: tail) = .error PyExn.indexError := by
    induction pre with
    | nil => simp [read_text_to_segments, hl1, hsp]
    | cons p ps ih =>
      have hp := hpre p (List.mem_cons_self p ps)
      have hps := fun q hq => hpre q (List.mem_cons_of_mem p hq)
      rcases hp with hb | hw
      · simpa [read_text_to_segments, hb] using ih hps
      · obtain ⟨⟨a, b⟩, hspl⟩ := Option.isSome_iff_exists.mp hw
        have hpb : ¬ pyStrip p = "" := by
          intro hc
          rw [hc] at hspl
          exact Option.noConfusion ((rfl : splitFirst sepChars ("" : String).toList = none).symm.trans hspl)
        have hspl2 : splitFirst sepChars (pyStrip p).data = some (a, b) := hspl
        simp [read_text_to_segments, hpb, hspl2, ih hps]
  refine ⟨hmain, ?_⟩
  simp [txtSegmentsJson, hmain, send_request]

/-- C5: on a transcript whose non-blank lines are all well formed,
`read_text_to_segments` succeeds and yields exactly one segment per non-blank
line, in file order (blank lines contribute nothing), each segment being the
per-line parse `lineSeg` (label before the first `": "`, with `speaker_`
stripped; text after the last `": "`); on the two example lines it yields
`{speakerId := "3", text := "hello world"}` and
`{speakerId := "1", text := "hi there"}`. -/
theorem read_text_to_segments_spec (lines : List String)
    (h : ∀ l ∈ lines, pyStrip l = "" ∨ wellFormedLine l = true) :
    read_text_to_segments lines =
      .ok ((lines.filter (fun l => !(pyStrip l == ""))).map lineSeg)
    ∧ read_text_to_segments ["speaker_3 : 00:00:01.0 - 00:00:02.0 : hello world"] =
        .ok [{ speakerId := "3", text := "hello world" }]
    ∧ read_text_to_segments ["speaker_1 : hi there"] =
        .ok [{ speakerId := "1", text := "hi there" }]
    ∧ read_text_to_segments ["", "   ", "speaker_1 : hi there"] =
        .ok [{ speakerId := "1", text := "hi there" }] := by
  refine ⟨?_, rfl, rfl, rfl⟩
  induction lines with
  | nil => rfl
  | cons l ls ih =>
    have hl := h l (List.mem_cons_self l ls)
    have hrest := fun q hq => h q (List.mem_cons_of_mem l hq)
    rcases hl with hb | hw
    · simp [read_text_to_segments, hb, ih hrest, List.filter_cons]
    · obtain ⟨⟨a, b⟩, hspl⟩ := Option.isSome_iff_exists.mp hw
      have hbne : ¬ pyStrip l = "" := by
        intro hc
        rw [hc] at hspl
        exact Option.noConfusion ((rfl : splitFirst sepChars ("" : String).toList = none).symm.trans hspl)
      have hspl2 : splitFirst sepChars (pyStrip l).data = some (a, b) := hspl
      simp [read_text_to_segments, hbne, hspl2, ih hrest, List.filter_cons, lineSeg]

/-- C5 witness: the general part instantiated on a concrete two-line file. -/
theorem read_text_to_segments_spec_witness :
    (∀ l ∈ ["speaker_1 : hi there", ""], pyStrip l = "" ∨ wellFormedLine l = true)
    ∧ (read_text_to_segments ["speaker_1 : hi there", ""] =
        .ok (((["speaker_1 : hi there", ""]).filter (fun l => !(pyStrip l == ""))).map lineSeg)
       ∧ read_text_to_segments ["speaker_3 : 00:00:01.0 - 00:00:02.0 : hello world"] =
          .ok [{ speakerId := "3", text := "hello world" }]
       ∧ read_text_to_segments ["speaker_1 : hi there"] =
          .ok [{ speakerId := "1", text := "hi there" }]
       ∧ read_text_to_segments ["", "   ", "speaker_1 : hi there"] =
          .ok [{ speakerId := "1", text := "hi there" }]) :=
  ⟨by decide, read_text_to_segments_spec _ (by decide)⟩

/-- C4 witness for the amended theorem: the malformed line `"hello"` with an
empty prefix. -/
theorem malformed_line_witness :
    (∀ p ∈ ([] : List String), pyStrip p = "" ∨ wellFormedLine p = true)
    ∧ ¬ pyStrip "hello" = ""
    ∧ wellFormedLine "hello" = false
    ∧ (read_text_to_segments ([] ++ "hello" :: []) = .error PyExn.indexError
       ∧ send_request (txtSegmentsJson ([] ++ "hello" :: []))
           (fun _ => .ok (.ok Json.null)) none = .ok none) :=
  ⟨by simp, by decide, by decide,
    malformed_line_raises_and_send_request_returns_none [] [] "hello"
      (fun _ => .ok (.ok Json.null)) none (by simp) (by decide) (by decide)⟩

/-- C6: `send_request` returns `None` (never an exception) when the POST call
raises, when JSON decoding of the response raises, or when the parsed body is
not a dict (after logging, which the model elides); it also returns `None`
when reading the input file raised; on success it returns
`response.get("request_id", None)`, i.e. the `request_id` field or `None` when
that field is absent. -/
theorem send_request_spec (segments : Json)
    (post : Json → Except PyExn (Except PyExn Json)) (model : Option String) :
    (∀ e, send_request (.error e) post model = .ok none)
    ∧ (∀ e, post (mkPayload segments model) = .error e →
        send_request (.ok segments) post model = .ok none)
    ∧ (∀ e, post (mkPayload segments model) = .ok (.error e) →
        send_request (.ok segments) post model = .ok none)
    ∧ (∀ fields, post (mkPayload segments model) = .ok (.ok (Json.obj fields)) →
        send_request (.ok segments) post model =
          .ok (lookupField fields "request_id")) := by
  refine ⟨fun e => rfl, fun e he => ?_, fun e he => ?_, fun fields hf => ?_⟩
  · simp [send_request, he]
  · simp [send_request, he]
  · simp [send_request, hf, jsonGet]

/-- C6 witness: a successful POST whose body carries a `request_id`. -/
theorem send_request_spec_witness :
    send_request (.ok (Json.arr []))
      (fun _ => .ok (.ok (Json.obj [("request_id", Json.str "r1")])))
      (some "iamus") = .ok (some (Json.str "r1")) :=
  ((send_request_spec (Json.arr [])
      (fun _ => .ok (.ok (Json.obj [("request_id", Json.str "r1")])))
      (some "iamus")).2.2.2 [("request_id", Json.str "r1")] rfl).trans rfl

/-- C7: for every poll trace consisting of any number of responses that are
neither a dict nor the `"FAILED"` sentinel (the driver's in-progress notion),
followed by a dict `d` (a completed result), the driver loop consumes the
whole trace and writes exactly one output file, only after the final, completed
response; and for every parsed poll response whose status string contains
neither `"progress"` nor `"completed"` (any unrecognized value such as
`"errored"`), `get_response` yields the `"FAILED"` sentinel, on which the loop
stops after that one response with zero writes, leaving the file system
untouched whatever responses would have followed. -/
theorem process_summary_request_trace_spec (pre : List Json) (d : Json)
    (hpre : ∀ r ∈ pre, isDict r = false ∧ isFAILED r = false)
    (hd : isDict d = true) :
    pollSteps (pre ++ [d]) = .written d (pre.length + 1)
    ∧ writesOf (pollSteps (pre ++ [d])) = 1
    ∧ (∀ (fs : String → Option Json) (fn out : String),
        (process_summary_request fn out (pre ++ [d]) fs).1 =
          writeOutput fs out fn d)
    ∧ (∀ (j : Json) (rest : List Json), statusUnrecognized j = true →
        get_response_body (.ok j) = Json.str "FAILED"
        ∧ pollSteps (get_response_body (.ok j) :: rest) = .failedStop 1
        ∧ writesOf (pollSteps (get_response_body (.ok j) :: rest)) = 0
        ∧ (∀ (fs : String → Option Json) (fn out : String),
            (process_summary_request fn out
              (get_response_body (.ok j) :: rest) fs).1 = fs)) := by
  have hps : ∀ pre2 : List Json,
      (∀ r ∈ pre2, isDict r = false ∧ isFAILED r = false) →
      pollSteps (pre2 ++ [d]) = .written d (pre2.length + 1) := by
    intro pre2
    induction pre2 with
    | nil => intro _; simp [pollSteps, hd]
    | cons r rs ih =>
      intro hp
      have hr := hp r (List.mem_cons_self r rs)
      have hrs := fun q hq => hp q (List.mem_cons_of_mem r hq)
      simp [pollSteps, hr.1, hr.2, ih hrs]
  have hfail : ∀ j : Json, statusUnrecognized j = true →
      get_response_body (.ok j) = Json.str "FAILED" := by
    intro j hj
    unfold statusUnrecognized at hj
    cases hst : statusOf j with
    | error e => rw [hst] at hj; simp at hj
    | ok s =>
      rw [hst] at hj
      simp only [Bool.and_eq_true, Bool.not_eq_true'] at hj
      obtain ⟨hp1, hp2⟩ := hj
      unfold statusOf at hst
      cases hg1 : jsonGetItem j "status" with
      | error e =>
        rw [hg1] at hst
        simp at hst
      | ok st =>
        rw [hg1] at hst
        cases hg2 : pyAsString st with
        | error e =>
          simp only [hg2] at hst
          exact absurd hst (fun hq => Except.noConfusion hq)
        | ok s2 =>
          simp only [hg2] at hst
          injection hst with hs2
          unfold get_response_body
          simp only [hg1, hg2, hs2, hp1, hp2, Bool.false_eq_true, if_false]
  refine ⟨hps pre hpre, by rw [hps pre hpre]; rfl, fun fs fn out => ?_,
    fun j rest hj => ?_⟩
  · simp [process_summary_request, hps pre hpre]
  · have hf := hfail j hj
    refine ⟨hf, ?_, ?_, fun fs fn out => ?_⟩
    · rw [hf]; rfl
    · rw [hf]; rfl
    · rw [hf]; rfl

/-- C7 witness: the spec's three-response trace with a two-long in-progress
prefix, and the unrecognized status `"errored"` with the loop stopping. -/
theorem process_summary_request_trace_witness :
    (∀ r ∈ [Json.str "IN PROGRESS", Json.str "IN PROGRESS"],
        isDict r = false ∧ isFAILED r = false)
    ∧ isDict (Json.obj [("summary", Json.str "s")]) = true
    ∧ statusUnrecognized (Json.obj [("status", Json.str "errored")]) = true
    ∧ pollSteps [Json.str "IN PROGRESS", Json.str "IN PROGRESS",
        Json.obj [("summary", Json.str "s")]] =
        .written (Json.obj [("summary", Json.str "s")]) 3
    ∧ pollSteps [get_response_body (.ok (Json.obj [("status", Json.str "errored")]))] =
        .failedStop 1 := by
  have h := process_summary_request_trace_spec
    [Json.str "IN PROGRESS", Json.str "IN PROGRESS"]
    (Json.obj [("summary", Json.str "s")]) (by decide) rfl
  refine ⟨by decide, rfl, rfl, ?_, ?_⟩
  · exact h.1
  · exact (h.2.2.2 (Json.obj [("status", Json.str "errored")]) [] rfl).2.1

/-- C8: the result writer stores exactly `{"response": result}` at
`<outFolder>/<basename(inputFileName)>.output.json`, touches no other path,
and overwriting is idempotent: re-running the same write leaves the same file
system; on the spec's example the path is `/tmp/out/call1.txt.output.json`. -/
theorem writeOutput_spec (fs : String → Option Json) (out_folder file_name : String)
    (result : Json) :
    writeOutput fs out_folder file_name result (outPath out_folder file_name) =
      some (Json.obj [("response", result)])
    ∧ writeOutput (writeOutput fs out_folder file_name result) out_folder
        file_name result = writeOutput fs out_folder file_name result
    ∧ (∀ p, p ≠ outPath out_folder file_name →
        writeOutput fs out_folder file_name result p = fs p)
    ∧ outPath "/tmp/out" "call1.txt" = "/tmp/out/call1.txt.output.json" := by
  refine ⟨?_, ?_, fun p hp => ?_, rfl⟩
  · simp [writeOutput]
  · simp [writeOutput, Function.update_idem]
  · simp [writeOutput, Function.update_noteq hp]

/-- C8 witness: a path other than the output path is untouched. -/
theorem writeOutput_spec_witness :
    ("/tmp/out/other.json" : String) ≠ outPath "/tmp/out" "call1.txt"
    ∧ writeOutput (fun _ => none) "/tmp/out" "call1.txt" Json.null
        "/tmp/out/other.json" = none :=
  ⟨by decide,
    ((writeOutput_spec (fun _ => none) "/tmp/out" "call1.txt" Json.null).2.2.1
      "/tmp/out/other.json" (by decide)).trans rfl⟩

/-- C9: the polling loop of `process_summary_request` has no retry cap and no
timeout; against a response stream that never yields a dict and never yields
the `"FAILED"` sentinel, the loop is still running after any number of
iterations, from any starting point. -/
theorem polling_never_terminates (resp : Nat → Json)
    (h : ∀ n, isDict (resp n) = false ∧ isFAILED (resp n) = false) :
    ∀ k fuel, runLoop resp k fuel = none := by
  intro k fuel
  induction fuel generalizing k with
  | zero => rfl
  | succ n ih => simp [runLoop, (h k).1, (h k).2, ih]

/-- C9 witness: the constant in-progress stream. -/
theorem polling_never_terminates_witness :
    (∀ n : Nat, isDict ((fun _ : Nat => Json.str "IN PROGRESS") n) = false
      ∧ isFAILED ((fun _ : Nat => Json.str "IN PROGRESS") n) = false)
    ∧ runLoop (fun _ : Nat => Json.str "IN PROGRESS") 0 100 = none :=
  ⟨fun _ => ⟨rfl, rfl⟩,
    polling_never_terminates (fun _ : Nat => Json.str "IN PROGRESS")
      (fun _ => ⟨rfl, rfl⟩) 0 100⟩

/-- C10: on a JSON document whose top-level `segments` is an array of dicts
each carrying `speaker_id`, `read_json_to_segments` returns that array with
`speaker_id` copied into a `speakerId` key on each element; the copy preserves
every other key and sets `speakerId` to the `speaker_id` value; on the spec's
example input it yields `[{speaker_id: "0", text: "hi", speakerId: "0"}]`; and
when the `segments` key is absent it fails with `KeyError("segments")`. -/
theorem read_json_to_segments_spec (fields : List (String × Json)) (segs : List Json)
    (hseg : lookupField fields "segments" = some (Json.arr segs))
    (hwf : ∀ x ∈ segs, ∃ xf v, x = Json.obj xf ∧ lookupField xf "speaker_id" = some v) :
    read_json_to_segments (.ok (Json.obj fields)) = .ok (Json.arr (segs.map copySpeakerT))
    ∧ (∀ xf v k2, k2 ≠ "speakerId" →
        lookupField (pyDictSet xf "speakerId" v) k2 = lookupField xf k2)
    ∧ (∀ xf v, lookupField (pyDictSet xf "speakerId" v) "speakerId" = some v)
    ∧ read_json_to_segments (.ok (Json.obj [("segments",
        Json.arr [Json.obj [("speaker_id", Json.str "0"), ("text", Json.str "hi")]])])) =
        .ok (Json.arr [Json.obj [("speaker_id", Json.str "0"), ("text", Json.str "hi"),
          ("speakerId", Json.str "0")]])
    ∧ (∀ fields2, lookupField fields2 "segments" = none →
        read_json_to_segments (.ok (Json.obj fields2)) =
          .error (PyExn.keyError "segments")) := by
  refine ⟨?_, fun xf v k2 hk => lookupField_pyDictSet_other xf "speakerId" k2 v hk,
    fun xf v => lookupField_pyDictSet_same xf "speakerId" v, rfl, fun fields2 h2 => ?_⟩
  · simp [read_json_to_segments, jsonGetItem, hseg, pyIterAssign,
      mapExcept_copySpeaker segs hwf]
  · simp [read_json_to_segments, jsonGetItem, h2]

/-- C10 witness: the spec's example document. -/
theorem read_json_to_segments_spec_witness :
    lookupField [("segments", Json.arr [Json.obj [("speaker_id", Json.str "0")]])]
      "segments" = some (Json.arr [Json.obj [("speaker_id", Json.str "0")]])
    ∧ read_json_to_segments (.ok (Json.obj [("segments",
        Json.arr [Json.obj [("speaker_id", Json.str "0")]])])) =
        .ok (Json.arr ([Json.obj [("speaker_id", Json.str "0")]].map copySpeakerT)) := by
  refine ⟨rfl, (read_json_to_segments_spec
    [("segments", Json.arr [Json.obj [("speaker_id", Json.str "0")]])]
    [Json.obj [("speaker_id", Json.str "0")]] rfl ?_).1⟩
  intro x hx
  simp only [List.mem_singleton] at hx
  subst hx
  exact ⟨_, _, rfl, rfl⟩

/-! ### Lemmas about the getopt model -/

/-- In `"i:o:"` the only registered option letters are `i` and `o`, and both
take an argument. -/
theorem short_has_arg_main (c : Char) (b : Bool)
    (h : short_has_arg c mainShortopts.toList = .ok b) :
    (c = 'i' ∨ c = 'o') ∧ b = true := by
  by_cases h1 : c = 'i'
  · subst h1
    have hv : short_has_arg 'i' mainShortopts.toList = .ok true := rfl
    rw [hv] at h
    injection h with hb
    exact ⟨Or.inl rfl, hb.symm⟩
  · by_cases h2 : c = 'o'
    · subst h2
      have hv : short_has_arg 'o' mainShortopts.toList = .ok true := rfl
      rw [hv] at h
      injection h with hb
      exact ⟨Or.inr rfl, hb.symm⟩
    · exfalso
      have he : mainShortopts.toList = ['i', ':', 'o', ':'] := rfl
      rw [he] at h
      have hc1 : ¬(c = 'i' ∧ ('i' : Char) ≠ ':') := by simp [h1]
      have hc2 : ¬(c = ':' ∧ (':' : Char) ≠ ':') := by simp
      have hc3 : ¬(c = 'o' ∧ ('o' : Char) ≠ ':') := by simp [h2]
      simp only [short_has_arg] at h
      rw [if_neg hc1, if_neg hc2, if_neg hc3, if_neg hc2] at h
      exact Except.noConfusion h

/-- Every option `do_shorts` can append under `"i:o:"` is `-i` or `-o`. -/
theorem do_shorts_allowed : ∀ (os : List Char) (opts : List CliOpt)
    (args : List String) (opts2 : List CliOpt) (b : Bool),
    (∀ p ∈ opts, allowedOpt p) →
    do_shorts opts os mainShortopts.toList args = .ok (opts2, b) →
    ∀ p ∈ opts2, allowedOpt p := by
  intro os
  induction os with
  | nil =>
    intro opts args opts2 b hall h
    simp only [do_shorts, Except.ok.injEq, Prod.mk.injEq] at h
    obtain ⟨h1, -⟩ := h
    rw [← h1]
    exact hall
  | cons opt rest ih =>
    intro opts args opts2 b hall h
    cases hsh : short_has_arg opt mainShortopts.toList with
    | error e =>
      simp only [do_shorts, hsh] at h
      exact absurd h (fun hq => Except.noConfusion hq)
    | ok hb =>
      obtain ⟨hio, hbt⟩ := short_has_arg_main opt hb hsh
      subst hbt
      simp only [do_shorts, hsh, eq_self_iff_true, if_true] at h
      have hx : ∀ v : String, allowedOpt (String.mk ['-', opt], v) := by
        intro v
        rcases hio with rfl | rfl
        · exact Or.inl rfl
        · exact Or.inr (Or.inl rfl)
      cases rest with
      | nil =>
        cases args with
        | nil => simp at h
        | cons a args2 =>
          simp only [Except.ok.injEq, Prod.mk.injEq] at h
          obtain ⟨h1, -⟩ := h
          intro p hp
          rw [← h1] at hp
          rcases List.mem_append.mp hp with hp2 | hp2
          · exact hall p hp2
          · rw [List.mem_singleton] at hp2
            subst hp2
            exact hx a
      | cons r rs =>
        simp only [Except.ok.injEq, Prod.mk.injEq] at h
        obtain ⟨h1, -⟩ := h
        intro p hp
        rw [← h1] at hp
        rcases List.mem_append.mp hp with hp2 | hp2
        · exact hall p hp2
        · rw [List.mem_singleton] at hp2
          subst hp2
          exact hx (String.mk (r :: rs))

/-- The prefix returned by `splitAtEq` contains no `'='`. -/
theorem splitAtEq_some_no_eq : ∀ (l a b2 : List Char),
    splitAtEq l = some (a, b2) → '=' ∉ a := by
  intro l
  induction l with
  | nil => intro a b2 h; exact Option.noConfusion h
  | cons c cs ih =>
    intro a b2 h
    simp only [splitAtEq] at h
    by_cases hc : c = '='
    · rw [if_pos hc] at h
      simp only [Option.some.injEq, Prod.mk.injEq] at h
      obtain ⟨h1, -⟩ := h
      intro hm
      rw [← h1] at hm
      exact (List.not_mem_nil '=') hm
    · rw [if_neg hc] at h
      cases hsp : splitAtEq cs with
      | none => rw [hsp] at h; simp at h
      | some pr =>
        obtain ⟨a2, b3⟩ := pr
        rw [hsp] at h
        simp only [Option.some.injEq, Prod.mk.injEq] at h
        obtain ⟨h1, -⟩ := h
        intro hm
        rw [← h1] at hm
        rcases List.mem_cons.mp hm with hm2 | hm2
        · exact hc hm2.symm
        · exact ih a2 b3 hsp hm2

/-- When `splitAtEq` finds nothing the whole text contains no `'='`. -/
theorem splitAtEq_none_no_eq : ∀ l : List Char,
    splitAtEq l = none → '=' ∉ l := by
  intro l
  induction l with
  | nil => intro h hm; exact (List.not_mem_nil '=') hm
  | cons c cs ih =>
    intro h hm
    simp only [splitAtEq] at h
    by_cases hc : c = '='
    · rw [if_pos hc] at h; exact Option.noConfusion h
    · rw [if_neg hc] at h
      cases hsp : splitAtEq cs with
      | none =>
        rcases List.mem_cons.mp hm with hm2 | hm2
        · exact hc hm2.symm
        · exact ih hsp hm2
      | some pr =>
        obtain ⟨a2, b3⟩ := pr
        rw [hsp] at h
        simp at h

/-- Against `["input_file_path=", "output_folder="]`, whenever `long_has_args`
succeeds on an option text containing no `'='`, the returned option name is
`input_file_path` or `output_folder`. -/
theorem long_has_args_main (opt : String) (hne : '=' ∉ opt.toList) (b : Bool)
    (o2 : String) (h : long_has_args opt mainLongopts = .ok (b, o2)) :
    o2 = "input_file_path" ∨ o2 = "output_folder" := by
  have hne1 : ¬(("input_file_path=" : String) = opt) := by
    intro hq; rw [← hq] at hne; exact hne (by decide)
  have hne2 : ¬(("output_folder=" : String) = opt) := by
    intro hq; rw [← hq] at hne; exact hne (by decide)
  have hcancel : ∀ s t : String, s ++ "=" = t ++ "=" → s = t := by
    intro s t hst
    have hd : s.data ++ ("=" : String).data = t.data ++ ("=" : String).data :=
      congrArg String.data hst
    have hd2 := List.append_cancel_right hd
    cases s
    cases t
    exact congrArg String.mk hd2
  unfold long_has_args at h
  simp only [mainLongopts, List.filter_cons, List.filter_nil] at h
  cases hA : startsWithChars opt.toList ("input_file_path=" : String).toList with
  | true =>
    cases hB : startsWithChars opt.toList ("output_folder=" : String).toList with
    | true =>
      simp only [hA, hB, eq_self_iff_true, if_true] at h
      have hs1 : strListHas ["input_file_path=", "output_folder="] opt = false := by
        simp only [strListHas]
        rw [if_neg hne1, if_neg hne2]
      rw [hs1] at h
      simp only [Bool.false_eq_true, if_false] at h
      by_cases hq1 : ("input_file_path=" : String) = opt ++ "="
      · have hopt : opt = "input_file_path" :=
          hcancel opt "input_file_path" (by rw [← hq1]; decide)
        have hs2 : strListHas ["input_file_path=", "output_folder="] (opt ++ "=") = true := by
          simp only [strListHas]
          rw [if_pos hq1]
        rw [hs2] at h
        simp only [eq_self_iff_true, if_true, Except.ok.injEq, Prod.mk.injEq] at h
        exact Or.inl (h.2.symm.trans hopt)
      · by_cases hq2 : ("output_folder=" : String) = opt ++ "="
        · have hopt : opt = "output_folder" :=
            hcancel opt "output_folder" (by rw [← hq2]; decide)
          have hs2 : strListHas ["input_file_path=", "output_folder="] (opt ++ "=") = true := by
            simp only [strListHas]
            rw [if_neg hq1, if_pos hq2]
          rw [hs2] at h
          simp only [eq_self_iff_true, if_true, Except.ok.injEq, Prod.mk.injEq] at h
          exact Or.inr (h.2.symm.trans hopt)
        · have hs2 : strListHas ["input_file_path=", "output_folder="] (opt ++ "=") = false := by
            simp only [strListHas]
            rw [if_neg hq1, if_neg hq2]
          rw [hs2] at h
          simp only [Bool.false_eq_true, if_false] at h
          exact absurd h (fun hq => Except.noConfusion hq)
    | false =>
      simp only [hA, hB, eq_self_iff_true, if_true, Bool.false_eq_true, if_false] at h
      have hs1 : strListHas ["input_file_path="] opt = false := by
        simp only [strListHas]
        rw [if_neg hne1]
      rw [hs1] at h
      simp only [Bool.false_eq_true, if_false] at h
      by_cases hq1 : ("input_file_path=" : String) = opt ++ "="
      · have hopt : opt = "input_file_path" :=
          hcancel opt "input_file_path" (by rw [← hq1]; decide)
        have hs2 : strListHas ["input_file_path="] (opt ++ "=") = true := by
          simp only [strListHas]
          rw [if_pos hq1]
        rw [hs2] at h
        simp only [eq_self_iff_true, if_true, Except.ok.injEq, Prod.mk.injEq] at h
        exact Or.inl (h.2.symm.trans hopt)
      · have hs2 : strListHas ["input_file_path="] (opt ++ "=") = false := by
          simp only [strListHas]
          rw [if_neg hq1]
        rw [hs2] at h
        simp only [Bool.false_eq_true, if_false] at h
        rw [show endsWithChars ['='] ("input_file_path=" : String).toList = true from rfl] at h
        simp only [eq_self_iff_true, if_true, Except.ok.injEq, Prod.mk.injEq] at h
        refine Or.inl (h.2.symm.trans ?_)
        decide
  | false =>
    cases hB : startsWithChars opt.toList ("output_folder=" : String).toList with
    | true =>
      simp only [hA, hB, eq_self_iff_true, if_true, Bool.false_eq_true, if_false] at h
      have hs1 : strListHas ["output_folder="] opt = false := by
        simp only [strListHas]
        rw [if_neg hne2]
      rw [hs1] at h
      simp only [Bool.false_eq_true, if_false] at h
      by_cases hq2 : ("output_folder=" : String) = opt ++ "="
      · have hopt : opt = "output_folder" :=
          hcancel opt "output_folder" (by rw [← hq2]; decide)
        have hs2 : strListHas ["output_folder="] (opt ++ "=") = true := by
          simp only [strListHas]
          rw [if_pos hq2]
        rw [hs2] at h
        simp only [eq_self_iff_true, if_true, Except.ok.injEq, Prod.mk.injEq] at h
        exact Or.inr (h.2.symm.trans hopt)
      · have hs2 : strListHas ["output_folder="] (opt ++ "=") = false := by
          simp only [strListHas]
          rw [if_neg hq2]
        rw [hs2] at h
        simp only [Bool.false_eq_true, if_false] at h
        rw [show endsWithChars ['='] ("output_folder=" : String).toList = true from rfl] at h
        simp only [eq_self_iff_true, if_true, Except.ok.injEq, Prod.mk.injEq] at h
        refine Or.inr (h.2.symm.trans ?_)
        decide
    | false =>
      simp only [hA, hB, Bool.false_eq_true, if_false] at h
      exact absurd h (fun hq => Except.noConfusion hq)

/-- Whatever `do_longs_core` appends has the shape `("--" ++ name, value)` for
the name returned by `long_has_args`. -/
theorem do_longs_core_shape (opts : List CliOpt) (opt : String) (optarg : Option String)
    (longopts : List String) (args : List String) (opts2 : List CliOpt) (b : Bool)
    (h : do_longs_core opts opt optarg longopts args = .ok (opts2, b)) :
    ∃ hasArg o2 v, long_has_args opt longopts = .ok (hasArg, o2) ∧
      opts2 = opts ++ [("--" ++ o2, v)] := by
  cases hlh : long_has_args opt longopts with
  | error e =>
    simp only [do_longs_core, hlh] at h
    exact absurd h (fun hq => Except.noConfusion hq)
  | ok pr =>
    obtain ⟨hasArg, o2⟩ := pr
    refine ⟨hasArg, o2, ?_⟩
    cases hasArg with
    | false =>
      cases optarg with
      | some v =>
        simp only [do_longs_core, hlh, Bool.false_eq_true, if_false] at h
        exact absurd h (fun hq => Except.noConfusion hq)
      | none =>
        simp only [do_longs_core, hlh, Bool.false_eq_true, if_false,
          Except.ok.injEq, Prod.mk.injEq] at h
        exact ⟨"", rfl, h.1.symm⟩
    | true =>
      cases optarg with
      | some v =>
        simp only [do_longs_core, hlh, eq_self_iff_true, if_true,
          Except.ok.injEq, Prod.mk.injEq] at h
        exact ⟨v, rfl, h.1.symm⟩
      | none =>
        cases args with
        | nil =>
          simp only [do_longs_core, hlh, eq_self_iff_true, if_true] at h
          exact absurd h (fun hq => Except.noConfusion hq)
        | cons a rest =>
          simp only [do_longs_core, hlh, eq_self_iff_true, if_true,
            Except.ok.injEq, Prod.mk.injEq] at h
          exact ⟨a, rfl, h.1.symm⟩

/-- Every option `do_longs` can append under the registered long options is
`--input_file_path` or `--output_folder`. -/
theorem do_longs_allowed (opts : List CliOpt) (opt0 : String) (args : List String)
    (opts2 : List CliOpt) (b : Bool)
    (hall : ∀ p ∈ opts, allowedOpt p)
    (h : do_longs opts opt0 mainLongopts args = .ok (opts2, b)) :
    ∀ p ∈ opts2, allowedOpt p := by
  have key : ∀ (opt : String) (optarg : Option String), '=' ∉ opt.toList →
      do_longs_core opts opt optarg mainLongopts args = .ok (opts2, b) →
      ∀ p ∈ opts2, allowedOpt p := by
    intro opt optarg hne hc
    obtain ⟨hasArg, o2, v, hlh, ho⟩ :=
      do_longs_core_shape opts opt optarg mainLongopts args opts2 b hc
    have ho2 := long_has_args_main opt hne hasArg o2 hlh
    intro p hp
    rw [ho] at hp
    rcases List.mem_append.mp hp with hp2 | hp2
    · exact hall p hp2
    · rw [List.mem_singleton] at hp2
      subst hp2
      rcases ho2 with rfl | rfl
      · refine Or.inr (Or.inr (Or.inl ?_))
        show ("--" ++ "input_file_path" : String) = "--input_file_path"
        decide
      · refine Or.inr (Or.inr (Or.inr ?_))
        show ("--" ++ "output_folder" : String) = "--output_folder"
        decide
  cases hsp : splitAtEq opt0.toList with
  | none =>
    simp only [do_longs, hsp] at h
    exact key opt0 none (splitAtEq_none_no_eq _ hsp) h
  | some pr =>
    obtain ⟨a2, b2⟩ := pr
    simp only [do_longs, hsp] at h
    refine key (String.mk a2) (some (String.mk b2)) ?_ h
    exact splitAtEq_some_no_eq _ _ _ hsp

/-- Invariant of the `getopt` loop: under `"i:o:"` and
`["input_file_path=", "output_folder="]`, every option it accumulates is one
of the four registered names. -/
theorem getoptLoop_allowed : ∀ (n : Nat) (args : List String), args.length ≤ n →
    ∀ opts : List CliOpt, (∀ p ∈ opts, allowedOpt p) →
    ∀ (opts2 : List CliOpt) (rest : List String),
    getoptLoop opts mainShortopts.toList mainLongopts args = .ok (opts2, rest) →
    ∀ p ∈ opts2, allowedOpt p := by
  intro n
  induction n with
  | zero =>
    intro args hlen opts hall opts2 rest h
    have hargs : args = [] := List.eq_nil_of_length_eq_zero (Nat.le_zero.mp hlen)
    subst hargs
    simp only [getoptLoop, Except.ok.injEq, Prod.mk.injEq] at h
    obtain ⟨h1, -⟩ := h
    rw [← h1]
    exact hall
  | succ n ih =>
    intro args hlen opts hall opts2 rest h
    cases args with
    | nil =>
      simp only [getoptLoop, Except.ok.injEq, Prod.mk.injEq] at h
      obtain ⟨h1, -⟩ := h
      rw [← h1]
      exact hall
    | cons a rest2 =>
      have hlen2 : rest2.length ≤ n := by
        simp only [List.length_cons] at hlen
        omega
      by_cases hc1 : startsWithChars ['-'] a.toList = false ∨ a = "-"
      · simp only [getoptLoop, if_pos hc1, Except.ok.injEq, Prod.mk.injEq] at h
        obtain ⟨h1, -⟩ := h
        rw [← h1]
        exact hall
      · by_cases hc2 : a = "--"
        · simp only [getoptLoop, if_neg hc1, if_pos hc2, Except.ok.injEq,
            Prod.mk.injEq] at h
          obtain ⟨h1, -⟩ := h
          rw [← h1]
          exact hall
        · by_cases hc3 : startsWithChars ['-', '-'] a.toList = true
          · cases hdl : do_longs opts (String.mk (a.toList.drop 2)) mainLongopts rest2 with
            | error e =>
              simp only [getoptLoop, if_neg hc1, if_neg hc2, if_pos hc3, hdl] at h
              exact absurd h (fun hq => Except.noConfusion hq)
            | ok pr =>
              obtain ⟨opts3, consumed⟩ := pr
              have hall3 := do_longs_allowed opts (String.mk (a.toList.drop 2))
                rest2 opts3 consumed hall hdl
              cases consumed with
              | false =>
                simp only [getoptLoop, if_neg hc1, if_neg hc2, if_pos hc3, hdl] at h
                exact ih rest2 hlen2 opts3 hall3 opts2 rest h
              | true =>
                simp only [getoptLoop, if_neg hc1, if_neg hc2, if_pos hc3, hdl] at h
                refine ih (rest2.drop 1) ?_ opts3 hall3 opts2 rest h
                simp only [List.length_drop]
                omega
          · cases hds : do_shorts opts (a.toList.drop 1) mainShortopts.toList rest2 with
            | error e =>
              simp only [getoptLoop, if_neg hc1, if_neg hc2, if_neg hc3, hds] at h
              exact absurd h (fun hq => Except.noConfusion hq)
            | ok pr =>
              obtain ⟨opts3, consumed⟩ := pr
              have hall3 := do_shorts_allowed (a.toList.drop 1) opts rest2 opts3
                consumed hall hds
              cases consumed with
              | false =>
                simp only [getoptLoop, if_neg hc1, if_neg hc2, if_neg hc3, hds] at h
                exact ih rest2 hlen2 opts3 hall3 opts2 rest h
              | true =>
                simp only [getoptLoop, if_neg hc1, if_neg hc2, if_neg hc3, hds] at h
                refine ih (rest2.drop 1) ?_ opts3 hall3 opts2 rest h
                simp only [List.length_drop]
                omega

/-- Every option pair returned by the `getopt.getopt` call of `__main__` is
one of `-i`, `-o`, `--input_file_path`, `--output_folder`. -/
theorem getopt_allowed (argv : List String) (opts : List CliOpt) (rest : List String)
    (h : getopt argv mainShortopts mainLongopts = .ok (opts, rest)) :
    ∀ p ∈ opts, allowedOpt p := by
  unfold getopt at h
  exact getoptLoop_allowed argv.length argv le_rfl []
    (fun p hp => absurd hp (List.not_mem_nil p)) opts rest h

/-- Folding the option loop over options drawn from the four registered names
never sets the `model` variable: it stays `None`. -/
theorem foldl_model_none : ∀ opts : List CliOpt, (∀ p ∈ opts, allowedOpt p) →
    ∀ i0 o0 : Option String, (opts.foldl optFold (i0, o0, none)).2.2 = none := by
  intro opts
  induction opts with
  | nil => intro _ i0 o0; rfl
  | cons p ps ih =>
    intro hall i0 o0
    have hp := hall p (List.mem_cons_self p ps)
    have hrest := fun q hq => hall q (List.mem_cons_of_mem p hq)
    rw [List.foldl_cons]
    rcases hp with h1 | h1 | h1 | h1
    · rw [show optFold (i0, o0, none) p = (some p.2, o0, none) from by
        simp [optFold, h1]]
      exact ih hrest _ _
    · rw [show optFold (i0, o0, none) p = (i0, some p.2, none) from by
        simp [optFold, h1]]
      exact ih hrest _ _
    · rw [show optFold (i0, o0, none) p = (some p.2, o0, none) from by
        simp [optFold, h1]]
      exact ih hrest _ _
    · rw [show optFold (i0, o0, none) p = (i0, some p.2, none) from by
        simp [optFold, h1]]
      exact ih hrest _ _

/-- The `model` component of `parsedOptions` is `None` for any option list the
registered parser can produce. -/
theorem parsedOptions_model_none (opts : List CliOpt)
    (hall : ∀ p ∈ opts, allowedOpt p) : (parsedOptions opts).2.2 = none :=
  foldl_model_none opts hall none none

/-- C1: whenever the API-key placeholder guard does not fire, `__main__` exits
with code 2 for EVERY argument vector, before `process_summary_request` (and
hence before any network request): a `-m`/`--model` argument makes `getopt`
fail (exit 2), and without it `model` stays `None`, failing
`model not in ["cassandra", "iamus"]` (exit 2); so the final call is
unreachable — and that call passes only 2 positional arguments while
`process_summary_request` declares 3, so it would raise `TypeError` anyway. -/
theorem main_always_exits_2 (apikey : String) (argv : List String)
    (isdir : String → Bool)
    (h : hasSub apikey.toList "YOUR_API_KEY".toList = false) :
    mainModel apikey argv isdir = .exitCode 2
    ∧ main_call_arg_count < process_summary_request_param_count := by
  refine ⟨?_, by decide⟩
  unfold mainModel
  rw [if_neg (fun hq => Bool.noConfusion (h.symm.trans hq))]
  cases hg : getopt argv mainShortopts mainLongopts with
  | error e => rfl
  | ok pr =>
    obtain ⟨opts, rest⟩ := pr
    have hall := getopt_allowed argv opts rest hg
    have hm := parsedOptions_model_none opts hall
    rcases hpo : parsedOptions opts with ⟨i, o, m⟩
    rw [hpo] at hm
    have hm2 : m = none := hm
    subst hm2
    cases i with
    | none => simp [hpo]
    | some iv =>
      cases o with
      | none => simp [hpo]
      | some ov => simp [hpo, modelOk, ite_self]

/-- C1 witness: a replaced API key and a fully valid-looking argument vector
still exit with code 2. -/
theorem main_always_exits_2_witness :
    hasSub "MYKEY123".toList "YOUR_API_KEY".toList = false
    ∧ (mainModel "MYKEY123" ["-i", "call1.txt", "-o", "/tmp/out"]
        (fun _ => true) = .exitCode 2
       ∧ main_call_arg_count < process_summary_request_param_count) :=
  ⟨by decide, main_always_exits_2 "MYKEY123" ["-i", "call1.txt", "-o", "/tmp/out"]
    (fun _ => true) (by decide)⟩

/-- C2: the argument parser registers neither the short form `m` (its
`short_has_arg` lookup in `"i:o:"` errors) nor the long form `model=`/`model`;
consequently no parsed option pair is ever `-m` or `--model`, and the `model`
variable keeps its default `None` after the option loop — the value that the
driver then validates (and that the code means to pass on to
`process_summary_request`/`send_request`, which expect a string). -/
theorem model_option_never_parsed (argv : List String) (opts : List CliOpt)
    (rest : List String)
    (h : getopt argv mainShortopts mainLongopts = .ok (opts, rest)) :
    (∃ e, short_has_arg 'm' mainShortopts.toList = .error e)
    ∧ strListHas mainLongopts "model=" = false
    ∧ strListHas mainLongopts "model" = false
    ∧ (∀ p ∈ opts, p.1 ≠ "-m" ∧ p.1 ≠ "--model")
    ∧ (parsedOptions opts).2.2 = none := by
  have hall := getopt_allowed argv opts rest h
  refine ⟨⟨.getoptError "option not recognized", rfl⟩, rfl, rfl, ?_,
    parsedOptions_model_none opts hall⟩
  intro p hp
  rcases hall p hp with h1 | h1 | h1 | h1 <;> rw [h1] <;>
    exact ⟨by decide, by decide⟩

/-- C2 witness: a concrete parse of `-i`/`-o` options. -/
theorem model_option_never_parsed_witness :
    getopt ["-i", "call1.txt", "-o", "/tmp/out"] mainShortopts mainLongopts =
      .ok ([("-i", "call1.txt"), ("-o", "/tmp/out")], [])
    ∧ ((∃ e, short_has_arg 'm' mainShortopts.toList = .error e)
       ∧ strListHas mainLongopts "model=" = false
       ∧ strListHas mainLongopts "model" = false
       ∧ (∀ p ∈ [(("-i" : String), ("call1.txt" : String)), ("-o", "/tmp/out")],
            p.1 ≠ "-m" ∧ p.1 ≠ "--model")
       ∧ (parsedOptions [("-i", "call1.txt"), ("-o", "/tmp/out")]).2.2 = none) := by
  have hg : getopt ["-i", "call1.txt", "-o", "/tmp/out"] mainShortopts mainLongopts =
      .ok ([("-i", "call1.txt"), ("-o", "/tmp/out")], []) := by
    simp [getopt, getoptLoop, do_shorts, short_has_arg, headIsColon, mainShortopts,
      mainLongopts, startsWithChars]
  exact ⟨hg, model_option_never_parsed _ _ _ hg⟩
